import Mathlib

/-!
Verification of the restaurant/event pipeline (scenario 1):
normalisation (flattener + schema polisher), event window filter,
restaurant detail projector and rating threshold inferencer.

Each Python function of the repository is embedded as an executable Lean
definition; exceptions that a function raises (or catches, prints and turns
into a `None` result) are modelled with `Except`, absent JSON keys with
`Option`, pandas `NaT` (from `pd.to_datetime(..., errors='coerce')`) with
`Option Date`, and the string marker `'NA'` is kept literally.
-/

/-! ### Dates (for `filter_events.py`)

`datetime(year, month, day)` values are modelled as triples ordered
lexicographically, which is exactly how `datetime` objects compare.
-/

structure Date where
  year : Int
  month : Nat
  day : Nat
deriving DecidableEq, Repr

/-- Lexicographic comparison of dates, the order of Python `datetime`. -/
def Date.le (a b : Date) : Bool :=
  a.year < b.year ||
    (a.year == b.year &&
      (a.month < b.month || (a.month == b.month && a.day ≤ b.day)))

/-- Gregorian leap-year rule used by `datetime`. -/
def isLeapYear (y : Int) : Bool :=
  (y % 4 == 0 && y % 100 != 0) || y % 400 == 0

/-- Number of days of month `m` of year `y` (the `datetime` calendar). -/
def daysInMonth (y : Int) (m : Nat) : Nat :=
  if m == 2 then (if isLeapYear y then 29 else 28)
  else if m == 4 || m == 6 || m == 9 || m == 11 then 30
  else 31

/-- `datetime(y, m, 1) - timedelta(days=1)`: the day before the first of a
month, i.e. the last day of the preceding month. -/
def firstOfMonthMinusOneDay (y : Int) (m : Nat) : Date :=
  if m == 1 then ⟨y - 1, 12, 31⟩ else ⟨y, m - 1, daysInMonth y (m - 1)⟩

/-- `month_start = datetime(year, month, 1)` from `filter_events_by_month`. -/
def month_start (year : Int) (month : Nat) : Date := ⟨year, month, 1⟩

/-- `month_end` from `filter_events_by_month`: December rolls over to
January of `year + 1`, otherwise the first of the next month, minus one day
in both cases. -/
def month_end (year : Int) (month : Nat) : Date :=
  if month == 12 then firstOfMonthMinusOneDay (year + 1) 1
  else firstOfMonthMinusOneDay year (month + 1)

/-- `series <= bound` on a `pd.to_datetime(..., errors='coerce')` column:
a coerced `NaT` (here `none`) never satisfies the comparison. -/
def coercedLE : Option Date → Date → Bool
  | none, _ => false
  | some d, bound => d.le bound

/-- `series >= bound` on a coerced date column; `NaT` never satisfies it. -/
def coercedGE : Option Date → Date → Bool
  | none, _ => false
  | some d, bound => bound.le d

/-! ### Event rows at the event-window-filter stage

`photos` is either the substituted `'NA'` string (the key was absent in the
feed, see `normalise_data`) or the original list of photo wrappers. -/

structure PhotoObj where
  url : Option String
deriving DecidableEq, Repr

structure PhotoWrapper where
  photo : Option PhotoObj
deriving DecidableEq, Repr

inductive PhotosField where
  | na
  | plist (ps : List PhotoWrapper)
deriving DecidableEq, Repr

structure EventRow where
  event_id : String
  title : String
  start_date : Option Date
  end_date : Option Date
  photos : PhotosField
  restaurant_res_id : String
deriving DecidableEq, Repr

/-- `filter_events_by_month`: keep the events whose coerced dates satisfy
`start_date <= month_end AND end_date >= month_start`. -/
def filter_events_by_month (events_df : List EventRow) (year : Int)
    (month : Nat) : List EventRow :=
  events_df.filter fun e =>
    coercedLE e.start_date (month_end year month) &&
      coercedGE e.end_date (month_start year month)

/-! ### `get_event_photo_urls` and `extract_event_data` -/

/-- `photo.get('photo', {}).get('url', 'NA')` for one wrapper. -/
def photoUrlOrNA (w : PhotoWrapper) : String :=
  ((w.photo.getD ⟨none⟩).url).getD "NA"

/-- `get_event_photo_urls`.  A non-empty list is comma-joined; an empty
list is falsy and yields `'NA'`.  When the `photos` cell holds the
substituted string `'NA'` itself, the code iterates over the characters of
that string and calls `.get` on a `str`, raising `AttributeError`, which the
handler re-raises as `ValueError("Error processing photo list: ...")`;
this is the `.error` branch. -/
def get_event_photo_urls : PhotosField → Except String String
  | .plist [] => .ok "NA"
  | .plist (w :: ws) =>
      .ok (String.intercalate ", " ((w :: ws).map photoUrlOrNA))
  | .na => .error "Error processing photo list: AttributeError"

structure Restaurant where
  id : String
  name : String
deriving DecidableEq, Repr

/-- `get_restaurant_name` inside `extract_event_data`: the name of the
first restaurant row whose `id` matches, `'NA'` when none does. -/
def get_restaurant_name (restaurant_df : List Restaurant)
    (res_id : String) : String :=
  match restaurant_df.find? (fun r => r.id == res_id) with
  | some r => r.name
  | none => "NA"

structure FinalEventRow where
  event_id : String
  restaurant_res_id : String
  restaurant_name : String
  photo_url : String
  title : String
  start_date : Option Date
  end_date : Option Date
deriving DecidableEq, Repr

/-- The distinct failures of `extract_event_data`; each carries the message
of the `ValueError` the code raises, catches and prints before returning
`None`. -/
inductive ExtractErr where
  | emptyEvents
  | emptyRestaurants
  | noMatch
  | photoError (msg : String)
deriving DecidableEq, Repr

/-- The message printed by the handler of `extract_event_data`. -/
def ExtractErr.message : ExtractErr → String
  | .emptyEvents => "The events DataFrame is empty."
  | .emptyRestaurants => "The restaurant DataFrame is empty."
  | .noMatch => "No events found for the specified month and year."
  | .photoError m => m

/-- Build one exported row (`photo_url` may raise, which propagates). -/
def mkFinalRow (restaurant_df : List Restaurant) (e : EventRow) :
    Except String FinalEventRow :=
  match get_event_photo_urls e.photos with
  | .error m => .error m
  | .ok u =>
      .ok { event_id := e.event_id
            restaurant_res_id := e.restaurant_res_id
            restaurant_name :=
              get_restaurant_name restaurant_df e.restaurant_res_id
            photo_url := u
            title := e.title
            start_date := e.start_date
            end_date := e.end_date }

/-- Apply `mkFinalRow` across the filtered events; the first raise aborts
the whole `apply`, as in pandas. -/
def mkFinalRows (restaurant_df : List Restaurant) :
    List EventRow → Except String (List FinalEventRow)
  | [] => .ok []
  | e :: es =>
      match mkFinalRow restaurant_df e with
      | .error m => .error m
      | .ok row =>
          match mkFinalRows restaurant_df es with
          | .error m => .error m
          | .ok rows => .ok (row :: rows)

/-- `extract_event_data`.  The Python function raises `ValueError` for an
empty input or an empty filter result, and its `except` clause prints the
message and returns `None`; both the raise and the handled outcome are
modelled by the `.error` value carrying the distinguishing failure. -/
def extract_event_data (events_df : List EventRow)
    (restaurant_df : List Restaurant) (year : Int) (month : Nat) :
    Except ExtractErr (List FinalEventRow) :=
  if events_df.isEmpty then .error .emptyEvents
  else if restaurant_df.isEmpty then .error .emptyRestaurants
  else
    let month_events := filter_events_by_month events_df year month
    if month_events.isEmpty then .error .noMatch
    else
      match mkFinalRows restaurant_df month_events with
      | .error m => .error (.photoError m)
      | .ok rows => .ok rows

/-! ### Flattener (`normalise_data`, lines 20-60)

The raw feed: a list of pages, each with a `restaurants` key (default `[]`),
each wrapper with a `restaurant` key (default `{}`), each restaurant object
with an `id` and a `zomato_events` key (default `[]`), each event wrapper
with an `event` key (default `{}`).  Absent keys are `none`. -/

structure RawEvent where
  event_id : Option String
  title : Option String
  description : Option String
  start_date : Option String
  end_date : Option String
  start_time : Option String
  end_time : Option String
  event_category : Option String
  photos : Option (List PhotoWrapper)
deriving DecidableEq, Repr

instance : Inhabited RawEvent :=
  ⟨⟨none, none, none, none, none, none, none, none, none⟩⟩

structure RawEventWrapper where
  event : Option RawEvent
deriving DecidableEq, Repr

structure RawRestaurant where
  id : Option String
  name : Option String
  zomato_events : Option (List RawEventWrapper)
deriving DecidableEq, Repr

instance : Inhabited RawRestaurant := ⟨⟨none, none, none⟩⟩

structure RawWrapper where
  restaurant : Option RawRestaurant
deriving DecidableEq, Repr

structure RawPage where
  restaurants : Option (List RawWrapper)
deriving DecidableEq, Repr

/-- One flattened event record: each `event.get('event', {}).get(k, 'NA')`
lookup materialised, with `photos` kept as a list when present and the
`'NA'` marker when absent, and `restaurant_res_id` synthesized from
`restaurant_data.get('id', 'NA')`. -/
structure FlatEvent where
  event_id : String
  title : String
  description : String
  start_date : String
  end_date : String
  start_time : String
  end_time : String
  event_category : String
  photos : PhotosField
  restaurant_res_id : String
deriving DecidableEq, Repr

/-- The `event_data` dict built for one nested event of one restaurant. -/
def mkFlatEvent (ew : RawEventWrapper) (rd : RawRestaurant) : FlatEvent :=
  let ev := ew.event.getD default
  { event_id := ev.event_id.getD "NA"
    title := ev.title.getD "NA"
    description := ev.description.getD "NA"
    start_date := ev.start_date.getD "NA"
    end_date := ev.end_date.getD "NA"
    start_time := ev.start_time.getD "NA"
    end_time := ev.end_time.getD "NA"
    event_category := ev.event_category.getD "NA"
    photos := match ev.photos with
      | some ps => .plist ps
      | none => .na
    restaurant_res_id := rd.id.getD "NA" }

/-- The restaurant object a wrapper carries, `row.get('restaurant', {})`. -/
def wrapperRestaurant (w : RawWrapper) : RawRestaurant :=
  w.restaurant.getD default

/-- The event wrappers of a restaurant, `restaurant_data.get('zomato_events', [])`. -/
def restaurantEvents (rd : RawRestaurant) : List RawEventWrapper :=
  rd.zomato_events.getD []

/-- The flattening loop of `normalise_data`: `restaurant_list` in page then
wrapper order. -/
def flattenRestaurants (json_file : List RawPage) : List RawRestaurant :=
  json_file.flatMap fun page =>
    (page.restaurants.getD []).map wrapperRestaurant

/-- The flattening loop of `normalise_data`: `events_list` in page, wrapper,
event order, each event tagged with its owning restaurant's id. -/
def flattenEvents (json_file : List RawPage) : List FlatEvent :=
  json_file.flatMap fun page =>
    (page.restaurants.getD []).flatMap fun w =>
      (restaurantEvents (wrapperRestaurant w)).map fun ew =>
        mkFlatEvent ew (wrapperRestaurant w)

/-! ### Schema Polisher (`normalise_data`, lines 63-80)

The restaurant table after `pd.DataFrame(restaurant_list)` is modelled
column-wise; a cell is a null (pandas `NaN`), a scalar, or an embedded
dict (the `location` / `user_rating` blocks). -/

inductive SubVal where
  | null
  | scalar (s : String)
deriving DecidableEq, Repr

inductive Cell where
  | null
  | scalar (s : String)
  | obj (fields : List (String × SubVal))
deriving DecidableEq, Repr

/-- A sub-field value as a top-level cell (the `location` and `user_rating`
blocks of the feed hold scalar sub-fields). -/
def SubVal.toCell : SubVal → Cell
  | .null => .null
  | .scalar s => .scalar s

structure Column where
  name : String
  cells : List Cell
deriving DecidableEq, Repr

/-- Keys of an embedded dict cell (a non-dict cell contributes none). -/
def objKeys : Cell → List String
  | .obj fs => fs.map (fun f => f.1)
  | _ => []

/-- Union of keys in first-appearance order, as `pd.json_normalize`
produces the expanded columns. -/
def addKeys (acc : List String) (ks : List String) : List String :=
  ks.foldl (fun a k => if k ∈ a then a else a ++ [k]) acc

def firstSeenKeys (cells : List Cell) : List String :=
  cells.foldl (fun a c => addKeys a (objKeys c)) []

/-- The value of sub-field `k` of a cell; a missing sub-field becomes a
null, which the later fill pass turns into `'NA'`. -/
def getField (c : Cell) (k : String) : Cell :=
  match c with
  | .obj fs => ((fs.lookup k).map SubVal.toCell).getD .null
  | _ => .null

/-- Whether the table has a column of this name (`'location' in df.columns`). -/
def hasCol (t : List Column) (cname : String) : Bool :=
  t.any (fun c => c.name == cname)

/-- `pd.concat([df.drop(columns=[cname]), pd.json_normalize(df[cname])],
axis=1)` when the column exists; the table unchanged otherwise. -/
def expandIfPresent (cname : String) (t : List Column) : List Column :=
  match t.find? (fun c => c.name == cname) with
  | none => t
  | some col =>
      t.filter (fun c => ¬ c.name == cname) ++
        (firstSeenKeys col.cells).map
          (fun k => ⟨k, col.cells.map (fun c => getField c k)⟩)

/-- `df.fillna('NA', inplace=True)`: every null cell becomes the scalar
`'NA'`; dict cells are not nulls and are left alone. -/
def fillNA (t : List Column) : List Column :=
  t.map fun c =>
    ⟨c.name, c.cells.map fun x => if x = Cell.null then Cell.scalar "NA" else x⟩

/-- The Schema Polisher part of `normalise_data`: expand `location`, then
`user_rating`, then fill the remaining nulls. -/
def polish (t : List Column) : List Column :=
  fillNA (expandIfPresent "user_rating" (expandIfPresent "location" t))

/-! ### Detail Projector (`details_processing.py`)

The reference workbook read: either the file is missing, or
`pd.read_excel` raises, or it yields a table whose two required columns may
or may not be present and whose rows pair a country code with a country
name cell that can itself be empty (`none`, pandas `NaN`). -/

inductive RefFile where
  | missing
  | unreadable
  | table (hasCodeCol : Bool) (hasCountryCol : Bool)
      (rows : List (Nat × Option String))
deriving DecidableEq, Repr

/-- The failures of `details_processing.py`; every one is raised, caught by
`restaurant_details_processing`, printed and turned into a `None` result,
which the `.error` value models. -/
inductive DetailsErr where
  | fileNotFound
  | readError
  | missingColumns
  | emptyRestaurants
  | emptyEvents
  | missingCountryId
  | unmappedCountry
  | emptyEventDf
  | missingEventColumns
deriving DecidableEq, Repr

/-- `country_codes_df.set_index('Country Code')['Country'].to_dict()` then
`.map`: the value of the last row with this code, `none` when the code is
absent or its name cell is `NaN`. -/
def countryNameFor (rows : List (Nat × Option String)) (code : Nat) :
    Option String :=
  match rows.reverse.find? (fun p => p.1 == code) with
  | some p => p.2
  | none => none

/-- `load_country_codes`: checks existence, readability and the two
required columns, then returns the code list and the mapping rows. -/
def load_country_codes (f : RefFile) :
    Except DetailsErr (List Nat × List (Nat × Option String)) :=
  match f with
  | .missing => .error .fileNotFound
  | .unreadable => .error .readError
  | .table hasCode hasCountry rows =>
      if hasCode && hasCountry then
        .ok (rows.map (fun p => p.1), rows)
      else .error .missingColumns

/-- Whether the `zomato_events` cell of a restaurant row is the `'NA'`
marker or the (possibly empty) original list. -/
inductive ZEField where
  | na
  | lst (events : List Unit)
deriving DecidableEq, Repr

/-- A restaurant row at the detail-projection stage (post polishing). -/
structure DRestaurant where
  id : Nat
  name : String
  country_id : Nat
  city : String
  votes : Nat
  aggregate_rating : Rat
  cuisines : String
  zomato_events : ZEField
deriving DecidableEq, Repr

/-- An event row as the detail projector receives it: `start_date` is the
raw string of the feed (the projector runs before any datetime coercion and
compares the strings themselves). -/
structure DEvent where
  restaurant_res_id : Nat
  start_date : String
deriving DecidableEq, Repr

/-- `filter_restaurants_by_country`: keep rows whose `country_id` is in the
code list. -/
def filter_restaurants_by_country (df : List DRestaurant)
    (country_code_array : List Nat) : List DRestaurant :=
  df.filter (fun r => country_code_array.contains r.country_id)

/-- `add_country_name`: map every `country_id` through the reference rows;
raise when any mapped name is null (`ValueError("Some country codes could
not be mapped to valid country names.")`), else return the annotated rows. -/
def add_country_name (df : List DRestaurant)
    (rows : List (Nat × Option String)) :
    Except DetailsErr (List (DRestaurant × String)) :=
  if df.any (fun r => (countryNameFor rows r.country_id).isNone) then
    .error .unmappedCountry
  else
    .ok (df.map fun r => (r, (countryNameFor rows r.country_id).getD ""))

/-- Python's `<` on two strings is code-point lexicographic; it is
modelled by the lexicographic order on the character lists, and `min`
keeps the accumulator unless the next value is strictly smaller. -/
def pyStrMin (a b : String) : String := if b.data < a.data then b else a

/-- `min` of a pandas object column holding strings: the fold of the
Python two-argument minimum. -/
def stringMin : List String → Option String
  | [] => none
  | x :: xs => some (xs.foldl pyStrMin x)

/-- The guard of `get_earliest_event_date`:
`row['zomato_events'] != 'NA' and isinstance(..., list) and len(...) > 0`. -/
def zeGuard : ZEField → Bool
  | .na => false
  | .lst es => ¬ es.isEmpty

/-- `get_earliest_event_date` of `select_and_rename_columns`: under the
`zomato_events` guard, the `min` of the raw `start_date` strings of the
events whose `restaurant_res_id` equals the row's id; `'NA'` otherwise. -/
def get_earliest_event_date (row : DRestaurant) (event_df : List DEvent) :
    String :=
  if zeGuard row.zomato_events then
    match stringMin ((event_df.filter
        (fun e => e.restaurant_res_id == row.id)).map
        (fun e => e.start_date)) with
    | some d => d
    | none => "NA"
  else "NA"

/-- One row of the 8-column detail export. -/
structure ExportRow where
  restaurant_id : Nat
  restaurant_name : String
  country : String
  city : String
  user_rating_votes : Nat
  user_aggregate_rating : Rat
  cuisines : String
  event_date : String
deriving DecidableEq, Repr

/-- `select_and_rename_columns`: raises on an empty event table, then
attaches the earliest event date and projects / renames the 8 columns. -/
def select_and_rename_columns (df : List (DRestaurant × String))
    (event_df : List DEvent) : Except DetailsErr (List ExportRow) :=
  if event_df.isEmpty then .error .emptyEventDf
  else
    .ok (df.map fun p =>
      { restaurant_id := p.1.id
        restaurant_name := p.1.name
        country := p.2
        city := p.1.city
        user_rating_votes := p.1.votes
        user_aggregate_rating := p.1.aggregate_rating
        cuisines := p.1.cuisines
        event_date := get_earliest_event_date p.1 event_df })

/-- `restaurant_details_processing`: the empty-input checks, the reference
load, the country filter, the annotation and the projection, composed; any
raise is caught, printed and returned as `None`, modelled by `.error`. -/
def restaurant_details_processing (df : List DRestaurant)
    (event_df : List DEvent) (ref : RefFile) :
    Except DetailsErr (List ExportRow) :=
  if df.isEmpty then .error .emptyRestaurants
  else if event_df.isEmpty then .error .emptyEvents
  else
    match load_country_codes ref with
    | .error e => .error e
    | .ok (codes, rows) =>
        match add_country_name (filter_restaurants_by_country df codes)
            rows with
        | .error e => .error e
        | .ok annotated => select_and_rename_columns annotated event_df

/-! ### Rating Threshold Inferencer (`rating_analyser.py`)

Ratings are decimals, modelled as rationals; `rating_text` is the raw
string label. -/

structure RatingRecord where
  rating_text : String
  aggregate_rating : Rat
deriving DecidableEq, Repr

/-- The fixed five canonical labels in ascending quality order. -/
def valid_rating_categories : List String :=
  ["Poor", "Average", "Good", "Very Good", "Excellent"]

/-- The canonical labels in ascending alphabetical order: the key order in
which `groupby('rating_text')` emits its groups (valid rows only carry
canonical labels, so the group keys are a sublist of this list). -/
def alphabetical_categories : List String :=
  ["Average", "Excellent", "Good", "Poor", "Very Good"]

/-- `df[df['rating_text'].isin(valid_rating_categories)]`. -/
def valid_ratings_df (df : List RatingRecord) : List RatingRecord :=
  df.filter (fun r => valid_rating_categories.contains r.rating_text)

/-- `df[~df['rating_text'].isin(valid_rating_categories)]`. -/
def invalid_ratings_df (df : List RatingRecord) : List RatingRecord :=
  df.filter (fun r => ¬ valid_rating_categories.contains r.rating_text)

/-- Whether some valid row carries this label (so that `groupby` has the
group). -/
def hasLabel (df : List RatingRecord) (l : String) : Bool :=
  (valid_ratings_df df).any (fun r => r.rating_text == l)

/-- The `aggregate_rating` values of the group with key `l`. -/
def groupRatings (df : List RatingRecord) (l : String) : List Rat :=
  ((valid_ratings_df df).filter (fun r => r.rating_text == l)).map
    (fun r => r.aggregate_rating)

def ratMinD : List Rat → Rat
  | [] => 0
  | x :: xs => xs.foldl min x

def ratMaxD : List Rat → Rat
  | [] => 0
  | x :: xs => xs.foldl max x

/-- One row of `category_stats`: label, `min`, `max` and
`range = max - min` of the group's aggregate ratings. -/
structure CategoryRow where
  rating_text : String
  min : Rat
  max : Rat
  range : Rat
deriving DecidableEq, Repr

def mkCategoryRow (df : List RatingRecord) (l : String) : CategoryRow :=
  { rating_text := l
    min := ratMinD (groupRatings df l)
    max := ratMaxD (groupRatings df l)
    range := ratMaxD (groupRatings df l) - ratMinD (groupRatings df l) }

/-- The position of a label in the `pd.Categorical` quality order, the sort
key of `sort_values('rating_text')`. -/
def qidx (l : String) : Nat := valid_rating_categories.indexOf l

/-- The comparison `sort_values` orders the rows by. -/
def qle (a b : CategoryRow) : Prop := qidx a.rating_text ≤ qidx b.rating_text

instance : DecidableRel qle := fun a b => Nat.decLe _ _

instance : IsTotal CategoryRow qle := ⟨fun a b => Nat.le_total _ _⟩

instance : IsTrans CategoryRow qle := ⟨fun _ _ _ => Nat.le_trans⟩

/-- `category_stats`: one row per group key of
`groupby('rating_text').agg(['min','max'])` (keys ascending, i.e.
alphabetical), re-sorted by the categorical quality order. -/
def category_stats (df : List RatingRecord) : List CategoryRow :=
  List.insertionSort qle
    ((alphabetical_categories.filter (hasLabel df)).map (mkCategoryRow df))

/-- The `rating_thresholds` dict: insertion order is the row order of the
sorted `category_stats`, keys are the labels, values the `(min, max)`
bounds; the rows themselves carry exactly that data. -/
def rating_thresholds (df : List RatingRecord) : List CategoryRow :=
  category_stats df

/-- The inclusive containment test of `map_rating_to_text`:
`min_rating <= aggregate_rating <= max_rating`. -/
def inRange (row : CategoryRow) (x : Rat) : Bool :=
  row.min ≤ x && x ≤ row.max

/-- `map_rating_to_text`: the label of the first threshold entry whose
range contains the value, `None` when no entry does. -/
def map_rating_to_text (df : List RatingRecord) (x : Rat) : Option String :=
  ((rating_thresholds df).find? (fun row => inRange row x)).map
    (fun row => row.rating_text)

/-- The rows of `invalid_ratings_df` whose `mapped_rating_text` is null. -/
def failed_mapping_df (df : List RatingRecord) : List RatingRecord :=
  (invalid_ratings_df df).filter
    (fun r => (map_rating_to_text df r.aggregate_rating).isNone)

/-- The rows of `invalid_ratings_df` that were mapped to a canonical
label, paired with it (`successful_translated_text`). -/
def successfully_mapped_df (df : List RatingRecord) :
    List (RatingRecord × String) :=
  ((invalid_ratings_df df).filterMap
    (fun r => (map_rating_to_text df r.aggregate_rating).map
      (fun l => (r, l))))

/-- The strict version of the sort comparison, used to identify the sorted
table (row labels are pairwise distinct, so the sort order is strict). -/
def qlt (a b : CategoryRow) : Prop := qidx a.rating_text < qidx b.rating_text

instance : IsAntisymm CategoryRow qlt :=
  ⟨fun _ _ h1 h2 => absurd h2 (Nat.lt_asymm h1)⟩

/-! ### Concrete sample inputs for witnesses and counterexamples -/

/-- The event of the spec's worked example: 2019-03-15 to 2019-04-05. -/
def marchEvent : EventRow :=
  { event_id := "31"
    title := "Wine tasting"
    start_date := some ⟨2019, 3, 15⟩
    end_date := some ⟨2019, 4, 5⟩
    photos := .plist []
    restaurant_res_id := "18" }

/-- The same event with the `photos` cell holding the substituted `'NA'`
string (its `photos` key was absent in the feed). -/
def naPhotosEvent : EventRow := { marchEvent with photos := .na }

def sampleRestaurant : Restaurant := ⟨"18", "R"⟩

/-- A restaurant row for the detail-projector examples: country code 1,
a non-empty `zomato_events` list. -/
def dRest : DRestaurant := ⟨18, "R", 1, "c", 5, 4, "x", .lst [()]⟩

def dEvent : DEvent := ⟨18, "2019-01-01"⟩

/-- An event of the same restaurant whose `start_date` string is malformed
and lexicographically below every ISO date. -/
def badDateEvent : DEvent := ⟨18, "!bad"⟩

/-- An already-polished table: scalar columns, no nulls. -/
def samplePolished : List Column :=
  [⟨"id", [.scalar "18", .scalar "19"]⟩, ⟨"city", [.scalar "a", .scalar "NA"]⟩]

/-! ### Helper lemmas -/

theorem coercedLE_iff (o : Option Date) (b : Date) :
    coercedLE o b = true ↔ ∃ d, o = some d ∧ d.le b = true := by
  cases o <;> simp [coercedLE]

theorem coercedGE_iff (o : Option Date) (b : Date) :
    coercedGE o b = true ↔ ∃ d, o = some d ∧ b.le d = true := by
  cases o <;> simp [coercedGE]

theorem foldlMin_le_init {α : Type} [LinearOrder α] (x : α) (xs : List α) :
    xs.foldl min x ≤ x := by
  induction xs generalizing x with
  | nil => exact le_rfl
  | cons y ys ih =>
      exact le_trans (ih (min x y)) (min_le_left x y)

theorem init_le_foldlMax {α : Type} [LinearOrder α] (x : α) (xs : List α) :
    x ≤ xs.foldl max x := by
  induction xs generalizing x with
  | nil => exact le_rfl
  | cons y ys ih =>
      exact le_trans (le_max_left x y) (ih (max x y))

theorem foldlMin_mem {α : Type} [LinearOrder α] (xs : List α) :
    ∀ x : α, xs.foldl min x ∈ x :: xs := by
  induction xs with
  | nil => intro x; simp
  | cons y ys ih =>
      intro x
      have h := ih (min x y)
      rcases List.mem_cons.1 h with h1 | h1
      · rcases min_choice x y with hc | hc <;> rw [List.foldl_cons, h1, hc] <;> simp
      · simp [List.foldl_cons, List.mem_cons.2 (Or.inr h1)]

theorem foldlMin_le {α : Type} [LinearOrder α] (xs : List α) :
    ∀ x : α, ∀ s ∈ x :: xs, xs.foldl min x ≤ s := by
  induction xs with
  | nil =>
      intro x s hs
      have : s = x := by simpa using hs
      simp [this]
  | cons y ys ih =>
      intro x s hs
      rcases List.mem_cons.1 hs with h1 | h1
      · rw [h1]
        exact le_trans (ih (min x y) (min x y) (by simp)) (min_le_left x y)
      · rcases List.mem_cons.1 h1 with h2 | h2
        · rw [h2]
          exact le_trans (ih (min x y) (min x y) (by simp)) (min_le_right x y)
        · exact ih (min x y) s (List.mem_cons.2 (Or.inr h2))

/-- `find?` on a `Pairwise R` list returns an element whose predicate holds
and that is `R`-before (or equal to) every other element satisfying it. -/
theorem find?_first {α : Type} {R : α → α → Prop} {p : α → Bool} :
    ∀ {l : List α}, l.Pairwise R → ∀ {a : α}, l.find? p = some a →
      a ∈ l ∧ p a = true ∧ ∀ b ∈ l, p b = true → R a b ∨ a = b := by
  intro l
  induction l with
  | nil => intro _ a h; simp [List.find?] at h
  | cons x xs ih =>
      intro hp a h
      rcases List.pairwise_cons.1 hp with ⟨hx, hxs⟩
      by_cases hpx : p x = true
      · rw [List.find?_cons_of_pos _ hpx] at h
        cases h
        refine ⟨by simp, hpx, ?_⟩
        intro b hb _
        rcases List.mem_cons.1 hb with h1 | h1
        · exact Or.inr h1.symm
        · exact Or.inl (hx b h1)
      · rw [List.find?_cons_of_neg _ hpx] at h
        obtain ⟨h1, h2, h3⟩ := ih hxs h
        refine ⟨List.mem_cons.2 (Or.inr h1), h2, ?_⟩
        intro b hb hpb
        rcases List.mem_cons.1 hb with hbx | hbx
        · exact absurd (hbx ▸ hpb) hpx
        · exact h3 b hbx hpb

/-! ### Claim theorems -/

/-- C2: an event is included for a target (year, month) iff both its dates
parsed and `start_date <= month_end` and `end_date >= month_start` (interval
overlap); the month boundary is the month's true last day, December rolling
over to January of year+1; a malformed (coerced) date never satisfies the
condition and is silently excluded; and the 2019-03-15..2019-04-05 event is
included for (2019,3) and (2019,4) and excluded for (2019,5). -/
theorem C2_event_window_filter (events_df : List EventRow) (year : Int)
    (month : Nat) (e : EventRow) (h1 : 1 ≤ month) (h2 : month ≤ 12) :
    (e ∈ filter_events_by_month events_df year month ↔
      e ∈ events_df ∧ ∃ s en, e.start_date = some s ∧ e.end_date = some en ∧
        s.le (month_end year month) = true ∧
        (month_start year month).le en = true)
    ∧ month_end year month = ⟨year, month, daysInMonth year month⟩
    ∧ ((e.start_date = none ∨ e.end_date = none) →
        e ∉ filter_events_by_month events_df year month)
    ∧ (marchEvent ∈ filter_events_by_month [marchEvent] 2019 3
        ∧ marchEvent ∈ filter_events_by_month [marchEvent] 2019 4
        ∧ marchEvent ∉ filter_events_by_month [marchEvent] 2019 5) := by
  refine ⟨?_, ?_, ?_, ?_⟩
  · simp only [filter_events_by_month, List.mem_filter, Bool.and_eq_true,
      coercedLE_iff, coercedGE_iff]
    constructor
    · rintro ⟨hmem, ⟨s, hs, hsle⟩, ⟨en, hen, henle⟩⟩
      exact ⟨hmem, s, en, hs, hen, hsle, henle⟩
    · rintro ⟨hmem, s, en, hs, hen, hsle, henle⟩
      exact ⟨hmem, ⟨s, hs, hsle⟩, ⟨en, hen, henle⟩⟩
  · interval_cases month <;>
      simp [month_end, firstOfMonthMinusOneDay, daysInMonth]
  · intro hnone hmem
    rw [filter_events_by_month, List.mem_filter] at hmem
    rcases hnone with hn | hn <;>
      rcases hmem with ⟨_, hcond⟩ <;>
      rw [hn] at hcond <;> simp [coercedLE, coercedGE] at hcond
  · refine ⟨?_, ?_, ?_⟩ <;> decide

/-- C2 witness: the theorem applied at the concrete March event and the
(2019, 3) window. -/
theorem C2_event_window_filter_witness :
    marchEvent ∈ filter_events_by_month [marchEvent] 2019 3 :=
  ((C2_event_window_filter [marchEvent] 2019 3 marchEvent (by decide)
    (by decide)).2.2.2).1

/-- C7: `extract_event_data` fails on an empty events collection, on an
empty restaurants collection, and on an empty filter result, with three
different reported failures (the raised message is printed and `None` is
returned), so an empty-input run and a no-match run are distinguishable and
neither produces a normal output; a normal output conversely implies both
inputs and the filter result were non-empty. -/
theorem C7_empty_and_no_match (events_df : List EventRow)
    (restaurant_df : List Restaurant) (year : Int) (month : Nat) :
    (events_df = [] →
      extract_event_data events_df restaurant_df year month =
        .error .emptyEvents)
    ∧ (events_df ≠ [] → restaurant_df = [] →
      extract_event_data events_df restaurant_df year month =
        .error .emptyRestaurants)
    ∧ (events_df ≠ [] → restaurant_df ≠ [] →
      filter_events_by_month events_df year month = [] →
      extract_event_data events_df restaurant_df year month =
        .error .noMatch)
    ∧ (∀ rows, extract_event_data events_df restaurant_df year month =
        .ok rows →
      events_df ≠ [] ∧ restaurant_df ≠ [] ∧
        filter_events_by_month events_df year month ≠ [])
    ∧ ExtractErr.emptyEvents ≠ ExtractErr.noMatch
    ∧ ExtractErr.message .emptyEvents ≠ ExtractErr.message .noMatch := by
  refine ⟨?_, ?_, ?_, ?_, by decide, by decide⟩
  · intro h; simp [extract_event_data, h]
  · intro h1 h2
    simp [extract_event_data, h1, h2]
  · intro h1 h2 h3
    simp [extract_event_data, h1, h2, h3]
  · intro rows h
    rw [extract_event_data] at h
    by_cases he : events_df.isEmpty
    · simp [he] at h
    · by_cases hr : restaurant_df.isEmpty
      · simp [he, hr] at h
      · by_cases hm : (filter_events_by_month events_df year month).isEmpty
        · simp [he, hr, hm] at h
        · refine ⟨?_, ?_, ?_⟩ <;>
            simp_all [List.isEmpty_iff]

/-- C8 (the code's actual behaviour at the claim's inputs): a non-empty
photo list is exported comma-joined, an empty list as the `'NA'` marker,
but an event whose `photos` field was absent in the feed (the flattener
substituted the string `'NA'`) makes `get_event_photo_urls` raise, and that
raise aborts the whole `extract_event_data` batch instead of exporting the
event with the marker. -/
theorem C8_photo_url_column :
    (∀ w : PhotoWrapper, ∀ ws : List PhotoWrapper,
      get_event_photo_urls (.plist (w :: ws)) =
        .ok (String.intercalate ", " ((w :: ws).map photoUrlOrNA)))
    ∧ get_event_photo_urls (.plist []) = .ok "NA"
    ∧ get_event_photo_urls .na =
        .error "Error processing photo list: AttributeError"
    ∧ (extract_event_data [marchEvent] [sampleRestaurant] 2019 3 =
        .ok [{ event_id := "31", restaurant_res_id := "18",
               restaurant_name := "R", photo_url := "NA",
               title := "Wine tasting", start_date := some ⟨2019, 3, 15⟩,
               end_date := some ⟨2019, 4, 5⟩ }])
    ∧ (extract_event_data [naPhotosEvent] [sampleRestaurant] 2019 3 =
        .error (.photoError "Error processing photo list: AttributeError")) := by
  refine ⟨?_, by rfl, by rfl, by rfl, by rfl⟩
  intro w ws
  rfl

/-- C4: the flattened event collection consists of exactly one record per
nested event of each restaurant wrapper of each page, and that record's
`restaurant_res_id` is the `id` of the restaurant object that contained the
event (the `'NA'` marker when the id key is absent). -/
theorem C4_flattener_foreign_key (json_file : List RawPage)
    (fe : FlatEvent) :
    fe ∈ flattenEvents json_file ↔
      ∃ page ∈ json_file, ∃ w ∈ page.restaurants.getD [],
        ∃ ew ∈ restaurantEvents (wrapperRestaurant w),
          fe = mkFlatEvent ew (wrapperRestaurant w) ∧
          fe.restaurant_res_id = (wrapperRestaurant w).id.getD "NA" := by
  rw [flattenEvents]
  simp only [List.mem_flatMap, List.mem_map]
  constructor
  · rintro ⟨page, hpage, w, hw, ew, hew, rfl⟩
    exact ⟨page, hpage, w, hw, ew, hew, rfl, rfl⟩
  · rintro ⟨page, hpage, w, hw, ew, hew, rfl, _⟩
    exact ⟨page, hpage, w, hw, ew, hew, rfl⟩

theorem pyStrMin_choice (a b : String) : pyStrMin a b = a ∨ pyStrMin a b = b := by
  unfold pyStrMin
  by_cases h : b.data < a.data <;> simp [h]

theorem pyStrMin_data_le_left (a b : String) :
    (pyStrMin a b).data ≤ a.data := by
  unfold pyStrMin
  by_cases h : b.data < a.data <;> simp [h, le_of_lt]

theorem pyStrMin_data_le_right (a b : String) :
    (pyStrMin a b).data ≤ b.data := by
  unfold pyStrMin
  by_cases h : b.data < a.data <;> simp [h, le_of_not_lt]

theorem foldlPyMin_mem (xs : List String) :
    ∀ x : String, xs.foldl pyStrMin x ∈ x :: xs := by
  induction xs with
  | nil => intro x; simp
  | cons y ys ih =>
      intro x
      have h := ih (pyStrMin x y)
      rcases List.mem_cons.1 h with h1 | h1
      · rcases pyStrMin_choice x y with hc | hc <;>
          rw [List.foldl_cons, h1, hc] <;> simp
      · simp [List.foldl_cons, List.mem_cons.2 (Or.inr h1)]

theorem foldlPyMin_le (xs : List String) :
    ∀ x : String, ∀ s ∈ x :: xs, (xs.foldl pyStrMin x).data ≤ s.data := by
  induction xs with
  | nil =>
      intro x s hs
      have : s = x := by simpa using hs
      simp [this]
  | cons y ys ih =>
      intro x s hs
      rcases List.mem_cons.1 hs with h1 | h1
      · rw [h1]
        exact le_trans (ih (pyStrMin x y) (pyStrMin x y) (by simp))
          (pyStrMin_data_le_left x y)
      · rcases List.mem_cons.1 h1 with h2 | h2
        · rw [h2]
          exact le_trans (ih (pyStrMin x y) (pyStrMin x y) (by simp))
            (pyStrMin_data_le_right x y)
        · exact ih (pyStrMin x y) s (List.mem_cons.2 (Or.inr h2))

theorem hasCol_false_find? {t : List Column} {n : String}
    (h : hasCol t n = false) : t.find? (fun c => c.name == n) = none := by
  rw [List.find?_eq_none]
  intro c hc
  rw [hasCol, List.any_eq_false] at h
  simpa using h c hc

theorem expandIfPresent_skip {t : List Column} {n : String}
    (h : hasCol t n = false) : expandIfPresent n t = t := by
  rw [expandIfPresent, hasCol_false_find? h]

theorem fillNA_idem (t : List Column) : fillNA (fillNA t) = fillNA t := by
  unfold fillNA
  rw [List.map_map]
  apply List.map_congr_left
  intro c _
  simp only [Function.comp]
  congr 1
  rw [List.map_map]
  apply List.map_congr_left
  intro x _
  by_cases h : x = Cell.null <;> simp [h]

/-- C9: the Schema Polisher is idempotent on a polished table: when the
polished table no longer carries a `location` or `user_rating` column
(nothing left to expand), a second application changes nothing, because the
expansions are skipped and the null-to-`'NA'` fill pass finds no null left
by the first fill. -/
theorem C9_polisher_idempotent (t : List Column)
    (h1 : hasCol (polish t) "location" = false)
    (h2 : hasCol (polish t) "user_rating" = false) :
    polish (polish t) = polish t := by
  show fillNA (expandIfPresent "user_rating"
    (expandIfPresent "location" (polish t))) = polish t
  rw [expandIfPresent_skip h1, expandIfPresent_skip h2]
  show fillNA (fillNA
    (expandIfPresent "user_rating" (expandIfPresent "location" t))) = polish t
  exact fillNA_idem _

/-- C9 witness: the theorem applied to a concrete polished two-column
table. -/
theorem C9_polisher_idempotent_witness :
    polish (polish samplePolished) = polish samplePolished :=
  C9_polisher_idempotent samplePolished (by rfl) (by rfl)

/-- C6 counterexample: with non-empty restaurant and event inputs and a
reference table that has both required columns but zero rows, the detail
projector reports no error at all: it returns a successful, silently empty
export. -/
theorem C6_counterexample :
    restaurant_details_processing [dRest] [dEvent] (.table true true []) =
      .ok []
    ∧ ∀ e : DetailsErr,
        restaurant_details_processing [dRest] [dEvent] (.table true true [])
          ≠ .error e := by
  have hok : restaurant_details_processing [dRest] [dEvent]
      (.table true true []) = .ok [] := rfl
  refine ⟨hok, fun e h => ?_⟩
  rw [hok] at h
  exact Except.noConfusion h

/-- C6 amended: an unreadable or missing reference workbook, or one lacking
a required column, makes the detail projector fail with the corresponding
reference-data error (printed and returned as a `None` result), but an
empty reference table with the required columns present does not fail: all
restaurants are filtered out and an empty export is produced. -/
theorem C6_reference_data_failures (df : List DRestaurant)
    (event_df : List DEvent) (hasCode hasCountry : Bool)
    (rows : List (Nat × Option String))
    (hdf : df ≠ []) (hev : event_df ≠ []) :
    restaurant_details_processing df event_df (.table true true []) = .ok []
    ∧ restaurant_details_processing df event_df .missing =
        .error .fileNotFound
    ∧ restaurant_details_processing df event_df .unreadable =
        .error .readError
    ∧ (hasCode = false ∨ hasCountry = false →
        restaurant_details_processing df event_df
          (.table hasCode hasCountry rows) = .error .missingColumns) := by
  have hdf' : df.isEmpty = false := by
    cases df with
    | nil => exact absurd rfl hdf
    | cons a l => rfl
  have hev' : event_df.isEmpty = false := by
    cases event_df with
    | nil => exact absurd rfl hev
    | cons a l => rfl
  have hfilter : filter_restaurants_by_country df [] = [] := by
    simp [filter_restaurants_by_country]
  refine ⟨?_, ?_, ?_, ?_⟩
  · simp [restaurant_details_processing, hdf', hev', load_country_codes,
      filter_restaurants_by_country, add_country_name,
      select_and_rename_columns]
  · rw [restaurant_details_processing]
    simp [hdf', hev', load_country_codes]
  · rw [restaurant_details_processing]
    simp [hdf', hev', load_country_codes]
  · intro h
    rw [restaurant_details_processing]
    simp only [hdf', hev', Bool.false_eq_true, if_false]
    rcases h with h | h <;> rw [h] <;> simp [load_country_codes]

/-- C6 witness: the amended theorem applied at a one-restaurant,
one-event, missing-workbook instance. -/
theorem C6_reference_data_failures_witness :
    restaurant_details_processing [dRest] [dEvent] RefFile.missing =
      .error .fileNotFound :=
  (C6_reference_data_failures [dRest] [dEvent] false true []
    (by simp) (by simp)).2.1

/-- C10 counterexample: a reference row whose country-name cell is null
makes the annotation failure branch fire even though the restaurant
survived the country filter (its code is in the code list). -/
theorem C10_unmapped_country_reachable :
    filter_restaurants_by_country [dRest] [1] = [dRest]
    ∧ restaurant_details_processing [dRest] [dEvent]
        (.table true true [(1, none)]) = .error .unmappedCountry := by
  exact ⟨rfl, rfl⟩

/-- C10 amended: the annotation failure branch is unreachable for
restaurants filtered by the code list of the same reference rows, provided
every reference row carries a non-null country name; every surviving
restaurant's code then has a usable entry in the mapping, so
`add_country_name` succeeds. -/
theorem C10_no_unmapped_after_filter (df : List DRestaurant)
    (rows : List (Nat × Option String))
    (h : ∀ p ∈ rows, (p.2).isSome = true) :
    ∃ out, add_country_name
        (filter_restaurants_by_country df (rows.map (fun p => p.1))) rows
      = .ok out := by
  have hname : ∀ r ∈ filter_restaurants_by_country df
      (rows.map (fun p => p.1)), (countryNameFor rows r.country_id).isSome = true := by
    intro r hr
    rw [filter_restaurants_by_country, List.mem_filter] at hr
    have hmem : r.country_id ∈ rows.map (fun p => p.1) := by
      simpa using hr.2
    rw [countryNameFor]
    cases hfind : rows.reverse.find? (fun p => p.1 == r.country_id) with
    | some p =>
        have hp : p ∈ rows.reverse := List.mem_of_find?_eq_some hfind
        exact h p (List.mem_reverse.1 hp)
    | none =>
        rw [List.find?_eq_none] at hfind
        rcases List.mem_map.1 hmem with ⟨p, hp, hpc⟩
        have := hfind p (List.mem_reverse.2 hp)
        simp [hpc] at this
  rw [add_country_name]
  rw [if_neg]
  · exact ⟨_, rfl⟩
  · intro hany
    rw [List.any_eq_true] at hany
    rcases hany with ⟨r, hr, hrn⟩
    have := hname r hr
    rw [Option.isNone_iff_eq_none] at hrn
    rw [hrn] at this
    exact Bool.noConfusion this

/-- C10 witness: the amended theorem at a one-row reference table whose
name cell is populated. -/
theorem C10_no_unmapped_after_filter_witness :
    ∃ out, add_country_name
        (filter_restaurants_by_country [dRest]
          ([((1 : Nat), some "Singapore")].map (fun p => p.1)))
        [((1 : Nat), some "Singapore")] = .ok out :=
  C10_no_unmapped_after_filter [dRest] [(1, some "Singapore")] (by simp)

/-- C3 counterexample: with the `zomato_events` guard satisfied and two
matching events, one carrying a malformed `start_date` string that is
lexicographically below every ISO date, the exported earliest-event-date is
that malformed string: raw strings are compared, no date normalisation
happens and a malformed string can sort first rather than last. -/
theorem C3_malformed_date_sorts_first :
    get_earliest_event_date dRest [badDateEvent, dEvent] = "!bad"
    ∧ ("!bad" : String) ≠ "2019-01-01" := by
  refine ⟨?_, by decide⟩
  rfl

/-- C3 amended: when the restaurant's own `zomato_events` cell is a
non-empty list and at least one event row matches its id, the exported
field is the code-point-lexicographic minimum of the raw `start_date`
strings of the matching events (it belongs to them and is `<=` each of
them); when the cell is the `'NA'` marker, or the list is empty, or no
event matches, the field is the `'NA'` marker. -/
theorem C3_earliest_event_date (row : DRestaurant)
    (event_df : List DEvent) :
    (∀ es, row.zomato_events = .lst es → es ≠ [] →
      (((event_df.filter (fun e => e.restaurant_res_id == row.id)) = [] →
          get_earliest_event_date row event_df = "NA")
        ∧ (get_earliest_event_date row event_df ∈
              (event_df.filter (fun e => e.restaurant_res_id == row.id)).map
                (fun e => e.start_date)
            ∨ (event_df.filter (fun e => e.restaurant_res_id == row.id)) = [])
        ∧ ∀ s ∈ (event_df.filter
              (fun e => e.restaurant_res_id == row.id)).map
              (fun e => e.start_date),
            (get_earliest_event_date row event_df).data ≤ s.data))
    ∧ (row.zomato_events = .na → get_earliest_event_date row event_df = "NA")
    ∧ (row.zomato_events = .lst [] →
        get_earliest_event_date row event_df = "NA") := by
  refine ⟨?_, ?_, ?_⟩
  · intro es hes hne
    have hguard : zeGuard row.zomato_events = true := by
      rw [hes]
      cases es with
      | nil => exact absurd rfl hne
      | cons a l => rfl
    have hval : get_earliest_event_date row event_df =
        (match stringMin ((event_df.filter
            (fun e => e.restaurant_res_id == row.id)).map
            (fun e => e.start_date)) with
          | some d => d
          | none => "NA") := by
      rw [get_earliest_event_date, hguard]
      rfl
    cases hflt : event_df.filter (fun e => e.restaurant_res_id == row.id) with
    | nil =>
        rw [hflt] at hval
        simp only [List.map_nil, stringMin] at hval
        refine ⟨fun _ => hval, Or.inr rfl, ?_⟩
        intro s hs
        simp at hs
    | cons e0 es0 =>
        rw [hflt] at hval
        simp only [List.map_cons, stringMin] at hval
        refine ⟨fun hc => absurd hc (List.cons_ne_nil e0 es0), Or.inl ?_, ?_⟩
        · rw [hval, List.map_cons]
          exact foldlPyMin_mem (es0.map (fun e => e.start_date)) e0.start_date
        · intro s hs
          rw [hval]
          rw [List.map_cons] at hs
          exact foldlPyMin_le (es0.map (fun e => e.start_date))
            e0.start_date s hs
  · intro hna
    rw [get_earliest_event_date, hna]
    rfl
  · intro hnil
    rw [get_earliest_event_date, hnil]
    rfl

theorem category_stats_eq (df : List RatingRecord) :
    category_stats df =
      (valid_rating_categories.filter (hasLabel df)).map (mkCategoryRow df) := by
  have hperm0 : alphabetical_categories.Perm valid_rating_categories := by
    decide
  have hperm : (category_stats df).Perm
      ((valid_rating_categories.filter (hasLabel df)).map
        (mkCategoryRow df)) :=
    (List.perm_insertionSort qle _).trans
      ((hperm0.filter (hasLabel df)).map (mkCategoryRow df))
  have hsorted1 : (category_stats df).Sorted qle :=
    List.sorted_insertionSort qle _
  have hq : valid_rating_categories.Pairwise
      (fun a b => qidx a < qidx b) := by decide
  have hsorted2 : ((valid_rating_categories.filter (hasLabel df)).map
      (mkCategoryRow df)).Pairwise qlt := by
    rw [List.pairwise_map]
    exact (hq.filter (hasLabel df)).imp (fun h => h)
  have hne1 : (category_stats df).Pairwise
      (fun a b : CategoryRow => qidx a.rating_text ≠ qidx b.rating_text) := by
    refine (hperm.pairwise_iff (fun hab => Ne.symm hab)).2 ?_
    exact hsorted2.imp (fun h => Nat.ne_of_lt h)
  have hsorted1' : (category_stats df).Sorted qlt := by
    exact (hsorted1.and hne1).imp
      (fun h => lt_of_le_of_ne h.1 h.2)
  exact List.eq_of_perm_of_sorted hperm hsorted1' hsorted2

/-- C5: the `category_stats` table has exactly one row per canonical label
present among the canonical records, its label column read top to bottom is
the fixed quality order restricted to the present labels, and every row
satisfies `min <= max` and `range = max - min`. -/
theorem C5_category_range_table (df : List RatingRecord) :
    (category_stats df).map (fun r => r.rating_text)
        = valid_rating_categories.filter (hasLabel df)
    ∧ (∀ r ∈ category_stats df, r.min ≤ r.max ∧ r.range = r.max - r.min)
    ∧ (∀ l, (∃ r ∈ category_stats df, r.rating_text = l) ↔
        (l ∈ valid_rating_categories ∧ hasLabel df l = true)) := by
  have hmaster := category_stats_eq df
  have hlabels : (category_stats df).map (fun r => r.rating_text)
      = valid_rating_categories.filter (hasLabel df) := by
    rw [hmaster, List.map_map]
    exact List.map_id _
  refine ⟨hlabels, ?_, ?_⟩
  · intro r hr
    rw [hmaster] at hr
    rcases List.mem_map.1 hr with ⟨l, hl, hrl⟩
    have hlab : hasLabel df l = true := (List.mem_filter.1 hl).2
    have hne : groupRatings df l ≠ [] := by
      rw [hasLabel, List.any_eq_true] at hlab
      rcases hlab with ⟨rec, hrec, hrecl⟩
      exact List.ne_nil_of_mem
        (List.mem_map.2 ⟨rec, List.mem_filter.2 ⟨hrec, hrecl⟩, rfl⟩)
    subst hrl
    constructor
    · show ratMinD (groupRatings df l) ≤ ratMaxD (groupRatings df l)
      cases hg : groupRatings df l with
      | nil => exact absurd hg hne
      | cons x xs =>
          rw [ratMinD, ratMaxD]
          exact le_trans (foldlMin_le_init x xs) (init_le_foldlMax x xs)
    · rfl
  · intro l
    constructor
    · rintro ⟨r, hr, hrl⟩
      have : l ∈ (category_stats df).map (fun r => r.rating_text) :=
        List.mem_map.2 ⟨r, hr, hrl⟩
      rw [hlabels, List.mem_filter] at this
      exact this
    · rintro ⟨h1, h2⟩
      have : l ∈ (category_stats df).map (fun r => r.rating_text) := by
        rw [hlabels, List.mem_filter]
        exact ⟨h1, h2⟩
      rcases List.mem_map.1 this with ⟨r, hr, hrl⟩
      exact ⟨r, hr, hrl⟩

/-- C1: a value is left unmapped (`None`) exactly when no threshold range
contains it inclusively on both bounds (vacuously so when no canonical
range exists); a mapped value's label belongs to a containing range and,
since the thresholds are iterated in the fixed ascending quality order, it
is of minimal quality index among all containing ranges (the lower-quality
label wins on overlaps); and the failed / successfully-mapped outputs
partition the non-canonical records by exactly this criterion applied to
their `aggregate_rating`. -/
theorem C1_rating_reclassification (df : List RatingRecord) (x : Rat) :
    (map_rating_to_text df x = none ↔
      ∀ row ∈ rating_thresholds df, ¬(row.min ≤ x ∧ x ≤ row.max))
    ∧ (∀ l, map_rating_to_text df x = some l →
        ∃ row ∈ rating_thresholds df, row.rating_text = l ∧
          row.min ≤ x ∧ x ≤ row.max ∧
          ∀ row2 ∈ rating_thresholds df, row2.min ≤ x → x ≤ row2.max →
            qidx l ≤ qidx row2.rating_text)
    ∧ (∀ r : RatingRecord, r ∈ failed_mapping_df df ↔
        r ∈ invalid_ratings_df df ∧
          map_rating_to_text df r.aggregate_rating = none)
    ∧ (∀ r l, (r, l) ∈ successfully_mapped_df df ↔
        r ∈ invalid_ratings_df df ∧
          map_rating_to_text df r.aggregate_rating = some l) := by
  refine ⟨?_, ?_, ?_, ?_⟩
  · rw [map_rating_to_text, Option.map_eq_none']
    rw [List.find?_eq_none]
    constructor
    · intro h row hrow hc
      have := h row hrow
      rw [inRange] at this
      simp [hc.1, hc.2] at this
    · intro h row hrow
      have := h row hrow
      rw [inRange]
      simp only [Bool.and_eq_true, decide_eq_true_eq]
      intro hc
      exact this hc
  · intro l hl
    rw [map_rating_to_text, Option.map_eq_some'] at hl
    rcases hl with ⟨row, hfind, hrl⟩
    have hpair : (rating_thresholds df).Pairwise qle :=
      List.sorted_insertionSort qle _
    obtain ⟨hmem, hp, hfirst⟩ := find?_first hpair hfind
    rw [inRange, Bool.and_eq_true, decide_eq_true_eq,
      decide_eq_true_eq] at hp
    refine ⟨row, hmem, hrl, hp.1, hp.2, ?_⟩
    intro row2 hrow2 hx1 hx2
    have hp2 : inRange row2 x = true := by
      rw [inRange]
      simp [hx1, hx2]
    rcases hfirst row2 hrow2 hp2 with hle | heq
    · rw [← hrl]
      exact hle
    · rw [← hrl, heq]
  · intro r
    rw [failed_mapping_df, List.mem_filter, Option.isNone_iff_eq_none]
  · intro r l
    rw [successfully_mapped_df, List.mem_filterMap]
    constructor
    · rintro ⟨a, ha, hmap⟩
      rw [Option.map_eq_some'] at hmap
      rcases hmap with ⟨l', hl', heq⟩
      have h1 : a = r := congrArg Prod.fst heq
      have h2 : l' = l := congrArg Prod.snd heq
      rw [h1] at ha hl'
      rw [h2] at hl'
      exact ⟨ha, hl'⟩
    · rintro ⟨ha, hmap⟩
      exact ⟨r, ha, by rw [hmap]; rfl⟩
